import Mathlib

/-
Verification of the game-organizer PC library engine (src/GameOrganizer.py).

The development shallowly embeds the engine: `PCGameEntry` and its alternate
launch configurations, the persistence round-trip (`dump_pc_game` /
`rebuild_pc_game_entry`), the add/sort/delete operations on the PC games
list, the selection/navigation indexing, random selection, the enrichment
view flows, and the cover-art path construction.

Python list indexing (`lst[i]`, `lst[i] = x`, `del lst[i]`) is embedded with
its real semantics: a negative index `i` is first normalized to
`i + len(lst)`, and only a normalized index outside `[0, len)` raises
`IndexError`.  Fallible operations return `Option`/`Except`, where `none` /
`.error e` stands for the exception propagating with no state change.
Python string comparison (used by `list.sort(key=...)`) is lexicographic on
Unicode code points; it is embedded by `title_lt` on `List Char`.
-/

/-- Alternate launch configuration: the Python dict objects
with a config title and path stored in `_alternate_configs`
(GameOrganizer.py line 39). -/
structure AltConfig where
  title : String
  path : String
deriving DecidableEq

/-- PCGameEntry attributes (GameOrganizer.py lines 31-39).  The three
optional fields `_last_played_date`, `_description`, `_cover_art_file`
are strings where the empty string means "unset", exactly as in
`__init__`. -/
structure PCGameEntry where
  title : String
  source : String
  application_path : String
  last_played_date : String
  description : String
  cover_art_file : String
  alternate_configs : List AltConfig
deriving DecidableEq

/-- PCGameEntry.__init__(title, source, application_path)
(GameOrganizer.py lines 31-39): the other fields start empty. -/
def PCGameEntry.init (title source application_path : String) : PCGameEntry :=
  { title := title
    source := source
    application_path := application_path
    last_played_date := ""
    description := ""
    cover_art_file := ""
    alternate_configs := [] }

/-- Shape of the attribute list produced by `dump_pc_game`
(GameOrganizer.py lines 108-111): a fixed-order record
(attributes[0] .. attributes[6]). -/
structure DumpedPCGame where
  title : String
  source : String
  application_path : String
  last_played_date : String
  description : String
  cover_art_file : String
  alternate_configs : List AltConfig
deriving DecidableEq

/-- PCGameEntry.dump_pc_game (GameOrganizer.py lines 108-111): condenses an
entry into the ordered attribute record. -/
def PCGameEntry.dump_pc_game (g : PCGameEntry) : DumpedPCGame :=
  { title := g.title
    source := g.source
    application_path := g.application_path
    last_played_date := g.last_played_date
    description := g.description
    cover_art_file := g.cover_art_file
    alternate_configs := g.alternate_configs }

/-- PCGameEntry.rebuild_pc_game_entry (GameOrganizer.py lines 113-122):
builds an entry from attributes[0..2] via the constructor and then assigns
attributes[3..6]. -/
def PCGameEntry.rebuild_pc_game_entry (attributes : DumpedPCGame) : PCGameEntry :=
  let new_game := PCGameEntry.init attributes.title attributes.source attributes.application_path
  { new_game with
    last_played_date := attributes.last_played_date
    description := attributes.description
    cover_art_file := attributes.cover_art_file
    alternate_configs := attributes.alternate_configs }

/-- GameOrganizerApp.save_pc_games_list (GameOrganizer.py lines 337-340):
the serialized form is the ordered list of dumped records
(`[i.dump_pc_game() for i in self.get_pc_games_list()]`); the pickle
byte encoding itself is the identity on this data. -/
def save_pc_games_list (l : List PCGameEntry) : List DumpedPCGame :=
  l.map (fun i => i.dump_pc_game)

/-- GameOrganizerApp.__init__ load path (GameOrganizer.py lines 221-224):
`[PCGameEntry.rebuild_pc_game_entry(attributes) for attributes in pickle.load(infile)]`. -/
def load_pc_games_list (d : List DumpedPCGame) : List PCGameEntry :=
  d.map PCGameEntry.rebuild_pc_game_entry

theorem rebuild_dump (g : PCGameEntry) :
    PCGameEntry.rebuild_pc_game_entry g.dump_pc_game = g := rfl

/-- C1: deserializing the serialized form of a PC games library
(rebuild_pc_game_entry applied, in order, to the dump_pc_game output of
each record) yields a library with the same record count in the same
order, and each rebuilt record equals the original field-for-field. -/
theorem claim_C1_serialize_roundtrip (L : List PCGameEntry) :
    load_pc_games_list (save_pc_games_list L) = L ∧
    (load_pc_games_list (save_pc_games_list L)).length = L.length := by
  have h : load_pc_games_list (save_pc_games_list L) = L := by
    unfold load_pc_games_list save_pc_games_list
    rw [List.map_map]
    exact List.map_id'' (fun g => rebuild_dump g) L
  exact ⟨h, by rw [h]⟩

/-- Exceptions of the Python fragments modelled here. -/
inductive PyErr where
  | indexError
  | valueError
deriving DecidableEq

/-- Python index normalization: a negative index counts from the end of the
list (`i + len`). -/
def pyNorm (n : Nat) (i : Int) : Int := if i < 0 then i + n else i

/-- Python `lst[i]`: normalize, then read, raising IndexError when the
normalized index is outside `[0, len)`. -/
def pyGet (l : List α) (i : Int) : Except PyErr α :=
  if h : 0 ≤ pyNorm l.length i ∧ pyNorm l.length i < l.length then
    .ok (l.get ⟨(pyNorm l.length i).toNat, by omega⟩)
  else .error .indexError

/-- Python `lst[i] = a`: normalize, then write; IndexError (modelled as
`none`, the list unchanged) when out of range. -/
def pySet (l : List α) (i : Int) (a : α) : Option (List α) :=
  if 0 ≤ pyNorm l.length i ∧ pyNorm l.length i < l.length then
    some (l.set (pyNorm l.length i).toNat a)
  else none

/-- Python `del lst[i]`: normalize, then remove the element; IndexError
(modelled as `none`, the list unchanged) when out of range. -/
def pyDelete (l : List α) (i : Int) : Option (List α) :=
  if 0 ≤ pyNorm l.length i ∧ pyNorm l.length i < l.length then
    some (l.eraseIdx (pyNorm l.length i).toNat)
  else none

/-- Read-modify-write of the entry at Python index `i`, the shape of every
`self.get_pc_games_list()[self._selected_game_index].set_...(...)` call. -/
def pyModify (l : List α) (i : Int) (f : α → α) : Option (List α) :=
  match pyGet l i with
  | .ok a => pySet l i (f a)
  | .error _ => none

/-- Python string `<` on two code-point sequences: lexicographic comparison,
a strict prefix being smaller.  This is the comparison `list.sort` applies
to the title keys. -/
def title_lt : List Char → List Char → Bool
  | _, [] => false
  | [], _ :: _ => true
  | a :: as, b :: bs =>
    if a.toNat < b.toNat then true
    else if b.toNat < a.toNat then false
    else title_lt as bs

/-- Non-strict key comparison derived from the strict one, as a sort by a
total preorder uses it: `s ≤ t` iff not `t < s`. -/
def title_le (s t : String) : Bool := !(title_lt t.data s.data)

/-- Ordering of two PC game entries by title, the key ordering of
`sort_pc_games` (GameOrganizer.py lines 432-441 with
`get_pc_game_entry_title` as the key). -/
def entry_le (a b : PCGameEntry) : Prop := title_le a.title b.title = true

instance : DecidableRel entry_le := fun a b =>
  inferInstanceAs (Decidable (title_le a.title b.title = true))

/-- GameOrganizerApp.sort_pc_games (GameOrganizer.py lines 432-441):
`self.get_pc_games_list().sort(key=self.get_pc_game_entry_title)`.
CPython's list.sort is a stable sort by the key's `<` comparison; a stable
sort by a total preorder has a unique result, so the stable insertion sort
is extensionally the same function. -/
def sort_pc_games (l : List PCGameEntry) : List PCGameEntry :=
  List.insertionSort entry_le l

/-- GameOrganizerApp.add_pc_game (GameOrganizer.py lines 407-409):
appends the received entry. -/
def add_pc_game (l : List PCGameEntry) (game_entry_object : PCGameEntry) : List PCGameEntry :=
  l ++ [game_entry_object]

/-- Record creation in GameOrganizerApp.new_pc_game (GameOrganizer.py lines
411-422): construct the entry, then register the received application path
as the default command in the alternate configs list. -/
def new_pc_game_entry (game_title source_platform application_path : String) : PCGameEntry :=
  let new_game := PCGameEntry.init game_title source_platform application_path
  { new_game with
    alternate_configs :=
      new_game.alternate_configs ++ [{ title := game_title, path := application_path }] }

/-- GameOrganizerApp.new_pc_game acting on the list (GameOrganizer.py lines
411-430): create the entry, add it, sort.  (The flow then saves the list.) -/
def new_pc_game (l : List PCGameEntry) (game_title source_platform application_path : String) :
    List PCGameEntry :=
  sort_pc_games (add_pc_game l (new_pc_game_entry game_title source_platform application_path))

/-- Confirmed branch of GameOrganizerApp.delete_pc_game (GameOrganizer.py
lines 516-534): `del self.get_pc_games_list()[self._selected_game_index]`. -/
def delete_pc_game (l : List PCGameEntry) (selected_game_index : Int) :
    Option (List PCGameEntry) :=
  pyDelete l selected_game_index

theorem title_lt_irrefl (s : List Char) : title_lt s s = false := by
  induction s with
  | nil => rfl
  | cons a as ih => simp [title_lt, ih]

theorem title_lt_asymm (a b : List Char) (h : title_lt a b = true) : title_lt b a = false := by
  induction a generalizing b with
  | nil =>
    cases b with
    | nil => simp [title_lt] at h
    | cons b0 bs => rfl
  | cons a0 as ih =>
    cases b with
    | nil => simp [title_lt] at h
    | cons b0 bs =>
      simp only [title_lt] at h ⊢
      split_ifs at h ⊢ <;> first | rfl | omega | exact ih bs h

theorem title_lt_negtrans (x y z : List Char) (h1 : title_lt y x = false)
    (h2 : title_lt z y = false) : title_lt z x = false := by
  induction x generalizing y z with
  | nil => cases z <;> rfl
  | cons x0 xs ih =>
    cases y with
    | nil => simp [title_lt] at h1
    | cons y0 ys =>
      cases z with
      | nil => simp [title_lt] at h2
      | cons z0 zs =>
        simp only [title_lt] at h1 h2 ⊢
        split_ifs at h1 h2 ⊢ <;> first | rfl | omega | exact ih ys zs h1 h2

theorem entry_le_iff (a b : PCGameEntry) :
    entry_le a b ↔ title_lt b.title.data a.title.data = false := by
  unfold entry_le title_le
  cases h : title_lt b.title.data a.title.data <;> simp

instance : IsTotal PCGameEntry entry_le :=
  ⟨fun a b => by
    rw [entry_le_iff, entry_le_iff]
    cases h : title_lt b.title.data a.title.data with
    | false => exact Or.inl rfl
    | true => exact Or.inr (title_lt_asymm _ _ h)⟩

instance : IsTrans PCGameEntry entry_le :=
  ⟨fun a b c hab hbc => by
    rw [entry_le_iff] at hab hbc ⊢
    exact title_lt_negtrans _ _ _ hab hbc⟩

theorem filter_orderedInsert (x : PCGameEntry) (l : List PCGameEntry) (t : String) :
    (List.orderedInsert entry_le x l).filter (fun e => decide (e.title = t)) =
      if x.title = t then x :: l.filter (fun e => decide (e.title = t))
      else l.filter (fun e => decide (e.title = t)) := by
  induction l with
  | nil => by_cases hx : x.title = t <;> simp [List.orderedInsert, List.filter, hx]
  | cons y ys ih =>
    by_cases hxy : entry_le x y
    · rw [List.orderedInsert, if_pos hxy]
      by_cases hx : x.title = t <;> simp [List.filter_cons, hx]
    · rw [List.orderedInsert, if_neg hxy]
      rw [List.filter_cons, List.filter_cons, ih]
      by_cases hx : x.title = t
      · have hylt : title_lt y.title.data x.title.data = true := by
          rw [entry_le_iff] at hxy
          cases h : title_lt y.title.data x.title.data with
          | false => exact absurd h hxy
          | true => rfl
        have hy : y.title ≠ t := by
          intro he
          rw [hx, he] at hylt
          simp [title_lt_irrefl] at hylt
        simp [hx, hy]
      · simp [hx]

/-- Stability of `sort_pc_games` with respect to equal titles: the records
carrying any fixed title come out in the same order they went in. -/
theorem filter_sort_pc_games (l : List PCGameEntry) (t : String) :
    (sort_pc_games l).filter (fun e => decide (e.title = t)) =
      l.filter (fun e => decide (e.title = t)) := by
  induction l with
  | nil => rfl
  | cons g gs ih =>
    unfold sort_pc_games at ih ⊢
    show (List.orderedInsert entry_le g (List.insertionSort entry_le gs)).filter _ = _
    rw [filter_orderedInsert, List.filter_cons]
    by_cases hg : g.title = t <;> simp [hg, ih]

theorem sorted_sort_pc_games (l : List PCGameEntry) :
    List.Sorted entry_le (sort_pc_games l) :=
  List.sorted_insertionSort entry_le l

theorem sorted_pyDelete {l l2 : List PCGameEntry} {i : Int}
    (hs : List.Sorted entry_le l) (h : pyDelete l i = some l2) :
    List.Sorted entry_le l2 := by
  unfold pyDelete at h
  split at h
  · cases h
    exact List.Pairwise.sublist (List.eraseIdx_sublist l _) hs
  · cases h

theorem length_pyDelete {α : Type} {l l2 : List α} {i : Int} (h : pyDelete l i = some l2) :
    l2.length + 1 = l.length := by
  unfold pyDelete at h
  split at h
  · cases h
    rw [List.length_eraseIdx]
    next hc =>
      have : (pyNorm l.length i).toNat < l.length := by
        unfold pyNorm at hc ⊢
        split at hc <;> omega
      rw [if_pos this]
      omega
  · cases h

/-- Operation alphabet for the add/delete histories of claim C2: an
`addSorted` is `add_pc_game` immediately followed by `sort_pc_games`, as
performed by `new_pc_game`; a `deleteAt` is the confirmed delete flow. -/
inductive LibOp where
  | addSorted (g : PCGameEntry)
  | deleteAt (i : Int)

def applyLibOp (l : List PCGameEntry) : LibOp → Option (List PCGameEntry)
  | .addSorted g => some (sort_pc_games (add_pc_game l g))
  | .deleteAt i => delete_pc_game l i

def applyLibOps (l : List PCGameEntry) : List LibOp → Option (List PCGameEntry)
  | [] => some l
  | op :: ops =>
    match applyLibOp l op with
    | some l2 => applyLibOps l2 ops
    | none => none

def numAdds (ops : List LibOp) : Nat :=
  ops.countP fun o => match o with | .addSorted _ => true | _ => false

def numDeletes (ops : List LibOp) : Nat :=
  ops.countP fun o => match o with | .deleteAt _ => true | _ => false

theorem length_sort_pc_games (l : List PCGameEntry) :
    (sort_pc_games l).length = l.length :=
  (List.perm_insertionSort entry_le l).length_eq

theorem applyLibOps_invariant (ops : List LibOp) (l0 l : List PCGameEntry)
    (h0 : List.Sorted entry_le l0) (h : applyLibOps l0 ops = some l) :
    List.Sorted entry_le l ∧ l.length + numDeletes ops = l0.length + numAdds ops := by
  induction ops generalizing l0 with
  | nil =>
    cases h
    exact ⟨h0, by simp [numAdds, numDeletes]⟩
  | cons op ops ih =>
    cases op with
    | addSorted g =>
      rw [applyLibOps] at h
      simp only [applyLibOp] at h
      have step := ih (sort_pc_games (add_pc_game l0 g)) (sorted_sort_pc_games _) h
      have hlen : (sort_pc_games (add_pc_game l0 g)).length = l0.length + 1 := by
        rw [length_sort_pc_games]
        simp [add_pc_game]
      rw [hlen] at step
      refine ⟨step.1, ?_⟩
      simp [numAdds, numDeletes, List.countP_cons] at step ⊢
      omega
    | deleteAt i =>
      rw [applyLibOps] at h
      simp only [applyLibOp, delete_pc_game] at h
      cases hdel : pyDelete l0 i with
      | none => rw [hdel] at h; cases h
      | some l1 =>
        rw [hdel] at h
        have step := ih l1 (sorted_pyDelete h0 hdel) h
        have hlen := length_pyDelete hdel
        refine ⟨step.1, ?_⟩
        simp [numAdds, numDeletes, List.countP_cons] at step ⊢
        omega

/-- C2: over every operation sequence in which each add_pc_game is followed
by sort_pc_games, with arbitrary interleaved confirmed deletes that
succeed, the resulting PC games list is non-decreasing by title under the
case-sensitive ordinal comparison, the record count equals the number of
adds minus the number of deletes, and the sort is stable with respect to
equal titles. -/
theorem claim_C2_sorted_history :
    (∀ (l : List PCGameEntry) (t : String),
        (sort_pc_games l).filter (fun e => decide (e.title = t)) =
          l.filter (fun e => decide (e.title = t))) ∧
    (∀ (ops : List LibOp) (l : List PCGameEntry),
        applyLibOps [] ops = some l →
        List.Sorted entry_le l ∧ l.length + numDeletes ops = numAdds ops) := by
  refine ⟨filter_sort_pc_games, fun ops l h => ?_⟩
  simpa using applyLibOps_invariant ops [] l List.sorted_nil h

/-- Sample record mirroring create_sample_data game 1 (GameOrganizer.py
line 921), built through the add flow. -/
def sampleAM2R : PCGameEntry := new_pc_game_entry "AM2R" "Steam" "D:/Games/AM2R.exe"

/-- Sample record mirroring create_sample_data game 4 (GameOrganizer.py
line 951), built through the add flow. -/
def sampleSDV : PCGameEntry := new_pc_game_entry "Stardew Valley" "Steam" "steam://rungameid/413150"

theorem claim_C2_sorted_history_witness :
    applyLibOps []
        [LibOp.addSorted sampleSDV, LibOp.addSorted sampleAM2R, LibOp.deleteAt 0] =
        some [sampleSDV] ∧
      (List.Sorted entry_le [sampleSDV] ∧
        ([sampleSDV] : List PCGameEntry).length +
            numDeletes [LibOp.addSorted sampleSDV, LibOp.addSorted sampleAM2R,
              LibOp.deleteAt 0] =
          numAdds [LibOp.addSorted sampleSDV, LibOp.addSorted sampleAM2R,
            LibOp.deleteAt 0]) :=
  ⟨by decide, claim_C2_sorted_history.2 _ _ (by decide)⟩

theorem claim_C3_counterexample : delete_pc_game [sampleAM2R] (-1) = some [] := by decide

/-- C3 amended: the confirmed delete flow performs Python `del lst[i]`, so
on a list of length n it is legal exactly for -n ≤ i < n: a nonnegative
in-range i removes the record at i, a negative in-range i removes the
record at i + n, and only any other i fails with IndexError (the `none`
result, the list unchanged). -/
theorem claim_C3_delete_python_semantics (l : List PCGameEntry) (i : Int) :
    (0 ≤ i → i < (l.length : Int) → delete_pc_game l i = some (l.eraseIdx i.toNat)) ∧
    (i < 0 → -(l.length : Int) ≤ i →
      delete_pc_game l i = some (l.eraseIdx (i + (l.length : Int)).toNat)) ∧
    ((i < -(l.length : Int) ∨ (l.length : Int) ≤ i) → delete_pc_game l i = none) := by
  unfold delete_pc_game pyDelete pyNorm
  refine ⟨fun h1 h2 => ?_, fun h1 h2 => ?_, fun h => ?_⟩
  · rw [if_neg (show ¬ i < 0 by omega)]
    rw [if_pos (by constructor <;> omega)]
  · rw [if_pos h1]
    rw [if_pos (by constructor <;> omega)]
  · by_cases hi : i < 0 <;> simp only [hi, if_true, if_false]
    · rw [if_neg (by omega)]
    · rw [if_neg (by omega)]

theorem claim_C3_delete_python_semantics_witness :
    (delete_pc_game [sampleAM2R, sampleSDV] 0 =
        some (([sampleAM2R, sampleSDV] : List PCGameEntry).eraseIdx (0 : Int).toNat)) ∧
    delete_pc_game [sampleAM2R, sampleSDV] 5 = none :=
  ⟨(claim_C3_delete_python_semantics [sampleAM2R, sampleSDV] 0).1 (by decide) (by decide),
   (claim_C3_delete_python_semantics [sampleAM2R, sampleSDV] 5).2.2 (Or.inr (by decide))⟩

/-- Relevant engine state: the PC games list and the selection cursor
`_selected_game_index` (GameOrganizer.py lines 226-229), -1 being the
sentinel for no selection. -/
structure AppState where
  pc_games_list : List PCGameEntry
  selected_game_index : Int
deriving DecidableEq

/-- Numeric branch of GameOrganizerApp.view_pc_games (GameOrganizer.py
lines 366-368): on token t the engine stores index t - 1 with no bounds
check and immediately calls view_pc_game_details, whose first statement
reads `self.get_pc_games_list()[self._selected_game_index]` (line 377).
The pair returned is the state after the assignment together with the
outcome of that read. -/
def view_pc_games_numeric (s : AppState) (t : Int) : AppState × Except PyErr PCGameEntry :=
  let s1 : AppState := { s with selected_game_index := t - 1 }
  (s1, pyGet s1.pc_games_list s1.selected_game_index)

/-- Back branch of view_pc_games (GameOrganizer.py lines 363-365): the
selection is reset to the sentinel before returning to the main menu. -/
def view_pc_games_back (s : AppState) : AppState :=
  { s with selected_game_index := -1 }

/-- C4, evaluated at the failing input: in the PC games list menu over two
records, the numeric token 100 drives the engine into a state whose
selected game index 99 is not the sentinel -1 yet is not a valid index
either, and the subsequent record access raises IndexError; the claimed
navigation invariant is violated by the code. -/
theorem claim_C4_invariant_violated :
    (view_pc_games_numeric
        { pc_games_list := [sampleAM2R, sampleSDV], selected_game_index := -1 }
        100).1.selected_game_index = 99 ∧
    ((99 : Int) ≠ -1) ∧
    ¬((0 : Int) ≤ 99 ∧
      (99 : Int) <
        (([sampleAM2R, sampleSDV] : List PCGameEntry).length : Int)) ∧
    (view_pc_games_numeric
        { pc_games_list := [sampleAM2R, sampleSDV], selected_game_index := -1 }
        100).2 = .error .indexError :=
  ⟨rfl, by decide, by decide, rfl⟩

/-- C5, evaluated at the failing input: in the PC games list menu over two
records the numeric token 3 is mapped to index 2 with no bounds check, and
accessing the selected record raises an uncaught IndexError; the claimed
bounds-check-and-reprompt behavior is absent from the code. -/
theorem claim_C5_out_of_range_uncaught :
    (view_pc_games_numeric
        { pc_games_list := [sampleAM2R, sampleSDV], selected_game_index := -1 }
        3).2 = .error .indexError ∧
    (view_pc_games_numeric
        { pc_games_list := [sampleAM2R, sampleSDV], selected_game_index := -1 }
        3).1.selected_game_index = 2 :=
  ⟨rfl, rfl⟩

/-- Python random.randint(a, b): a uniform draw from the inclusive range
[a, b], raising ValueError when the range is empty (a > b).  The draw is
parameterized by an oracle; for a ≤ b the value is a + oracle % (b - a + 1),
so a uniform oracle gives a uniform result. -/
def randint (a b : Int) (oracle : Nat) : Except PyErr Int :=
  if a ≤ b then .ok (a + (oracle % (b - a + 1).toNat : Nat)) else .error .valueError

/-- GameOrganizerApp.select_random_pc_game (GameOrganizer.py lines 536-543):
`random.randint(0, list_length - 1)` with no emptiness guard; the chosen
index becomes the selection. -/
def select_random_pc_game (l : List PCGameEntry) (oracle : Nat) : Except PyErr Int :=
  randint 0 ((l.length : Int) - 1) oracle

/-- C6, evaluated at the failing input: on an empty PC games list the code
reaches random.randint(0, -1) unguarded, which raises ValueError (an
uncaught crash), not an explicitly guarded EmptyCollection condition. -/
theorem claim_C6_empty_random_raises (oracle : Nat) :
    select_random_pc_game [] oracle = .error .valueError := rfl

/-- C7: a record created by the add-new-PC-game flow from title T, source S
and path P has exactly one alternate configuration, and it is
configuration #1 with title T and path P, mirroring the default
application path. -/
theorem claim_C7_default_alternate_config (T S P : String) :
    (new_pc_game_entry T S P).alternate_configs = [{ title := T, path := P }] ∧
    (new_pc_game_entry T S P).alternate_configs.length = 1 ∧
    (new_pc_game_entry T S P).application_path = P ∧
    (new_pc_game_entry T S P).title = T :=
  ⟨rfl, rfl, rfl, rfl⟩

/-- Python str.replace(" ", "_") as called at GameOrganizer.py line 323:
with a one-character pattern and replacement it maps every space character
to an underscore. -/
def replace_spaces (s : String) : String :=
  String.mk (s.data.map fun c => if c = ' ' then '_' else c)

/-- Path construction of GameOrganizerApp.download_cover_art
(GameOrganizer.py lines 320-329): output_path_temp is
"./images/" + game_name + ".png", output_path replaces the spaces; the
image bytes are written to output_path and output_path is returned. -/
def download_cover_art_path (game_name : String) : String :=
  replace_spaces ("./images/" ++ game_name ++ ".png")

theorem replace_spaces_append (a b : String) :
    replace_spaces (a ++ b) = replace_spaces a ++ replace_spaces b := by
  apply String.ext
  show ((a.data ++ b.data).map fun c => if c = ' ' then '_' else c) =
    (a.data.map fun c => if c = ' ' then '_' else c) ++
      (b.data.map fun c => if c = ' ' then '_' else c)
  exact List.map_append _ _ _

/-- C10: the cover-art download writes to and returns the path
"./images/" ++ title ++ ".png" with every space replaced by an underscore
(the fixed path pieces contain no space, so sanitizing the whole string
sanitizes exactly the title), and in particular the title
"Red Dead Redemption 2" yields "./images/Red_Dead_Redemption_2.png". -/
theorem claim_C10_cover_art_path (game_name : String) :
    download_cover_art_path game_name =
      "./images/" ++ replace_spaces game_name ++ ".png" ∧
    download_cover_art_path "Red Dead Redemption 2" =
      "./images/Red_Dead_Redemption_2.png" := by
  constructor
  · unfold download_cover_art_path
    rw [replace_spaces_append, replace_spaces_append]
    rw [show replace_spaces "./images/" = "./images/" by decide,
      show replace_spaces ".png" = ".png" by decide]
  · decide

theorem pyGet_mem {α : Type} {l : List α} {i : Int} {a : α} (h : pyGet l i = .ok a) :
    a ∈ l := by
  unfold pyGet at h
  split at h
  · cases h
    exact List.get_mem _ _ _
  · cases h

theorem pySet_mem {α : Type} {l l2 : List α} {i : Int} {a x : α}
    (h : pySet l i a = some l2) (hx : x ∈ l2) : x ∈ l ∨ x = a := by
  unfold pySet at h
  split at h
  · cases h
    exact List.mem_or_eq_of_mem_set hx
  · cases h

theorem pySet_of_pyGet {α : Type} {l : List α} {i : Int} {g : α}
    (h : pyGet l i = .ok g) (a : α) :
    pySet l i a = some (l.set (pyNorm l.length i).toNat a) := by
  unfold pyGet at h
  split at h
  · unfold pySet
    rw [if_pos ‹_›]
  · cases h

theorem pyGet_pySet_self {α : Type} {l l2 : List α} {i : Int} {a : α}
    (h : pySet l i a = some l2) : pyGet l2 i = .ok a := by
  unfold pySet at h
  split at h
  · next hc =>
    cases h
    unfold pyGet
    simp only [List.length_set]
    rw [dif_pos hc]
    congr 1
    rw [List.get_eq_getElem]
    exact List.getElem_set_self _
  · cases h

/-- Read-modify-write of the alternate configs of the entry at Python
index `i`: the shape of GameOrganizer.py lines 637, 703, 722 and 759,
where a config-list operation runs on the selected entry and the list is
then saved. -/
def pyModifyConfigs (l : List PCGameEntry) (i : Int)
    (f : List AltConfig → Option (List AltConfig)) : Option (List PCGameEntry) :=
  match pyGet l i with
  | .ok g =>
    match f g.alternate_configs with
    | some cs => pySet l i { g with alternate_configs := cs }
    | none => none
  | .error _ => none

/-- Mutating engine operations of the PC side of GameOrganizerApp, one
constructor per source method: newGame = new_pc_game (lines 411-430),
sortGames = sort_pc_games (432-434), deleteGame = delete_pc_game confirmed
branch (526-532), editTitle/editSource/editPath = edit_*_pc (470-514),
newAltConfig = new_alternate_config_pc (627-641), updateAltConfig =
edit_config_*_pc (689-725), deleteAltConfig = delete_alternate_config_pc
confirmed branch (758-763), setDescription = consented branch of
view_game_description_pc (815-822), setCoverArt = consented branch of
view_cover_art_pc (851-857), runDefault = run_default_config_pc (566-578),
runAlternate = run_alternate_config_pc (614-625).  `i` is the selected
game index, `j` a configuration index. -/
inductive EngineOp where
  | newGame (T S P : String)
  | sortGames
  | deleteGame (i : Int)
  | editTitle (i : Int) (s : String)
  | editSource (i : Int) (s : String)
  | editPath (i : Int) (s : String)
  | newAltConfig (i : Int) (t p : String)
  | updateAltConfig (i j : Int) (t p : String)
  | deleteAltConfig (i j : Int)
  | setDescription (i : Int) (d : String)
  | setCoverArt (i : Int)
  | runDefault (i : Int)
  | runAlternate (i j : Int)

/-- Effect of one engine operation on the PC games list: the new list
paired with whether the operation calls save_pc_games_list; `none` models
an uncaught exception with no committed state.  `today` is the current
date string that set_last_played_date would stamp. -/
def applyEngineOp (op : EngineOp) (l : List PCGameEntry) (today : String) :
    Option (List PCGameEntry × Bool) :=
  match op with
  | .newGame T S P => some (new_pc_game l T S P, true)
  | .sortGames => some (sort_pc_games l, false)
  | .deleteGame i => (delete_pc_game l i).map fun l2 => (l2, true)
  | .editTitle i s => (pyModify l i fun g => { g with title := s }).map fun l2 => (l2, true)
  | .editSource i s => (pyModify l i fun g => { g with source := s }).map fun l2 => (l2, true)
  | .editPath i s =>
    (pyModify l i fun g => { g with application_path := s }).map fun l2 => (l2, true)
  | .newAltConfig i t p =>
    (pyModifyConfigs l i fun cs => some (cs ++ [{ title := t, path := p }])).map
      fun l2 => (l2, true)
  | .updateAltConfig i j t p =>
    (pyModifyConfigs l i fun cs => pySet cs j { title := t, path := p }).map
      fun l2 => (l2, true)
  | .deleteAltConfig i j =>
    (pyModifyConfigs l i fun cs => pyDelete cs j).map fun l2 => (l2, true)
  | .setDescription i d =>
    (pyModify l i fun g => { g with description := d }).map fun l2 => (l2, true)
  | .setCoverArt i =>
    (pyModify l i fun g => { g with cover_art_file := download_cover_art_path g.title }).map
      fun l2 => (l2, true)
  | .runDefault i =>
    (pyModify l i fun g => { g with last_played_date := today }).map fun l2 => (l2, true)
  | .runAlternate i j =>
    match pyGet l i with
    | .ok g =>
      match pyGet g.alternate_configs j with
      | .ok _ =>
        (pyModify l i fun g2 => { g2 with last_played_date := today }).map fun l2 => (l2, true)
      | .error _ => none
    | .error _ => none

def isLaunch : EngineOp → Bool
  | .runDefault _ => true
  | .runAlternate _ _ => true
  | _ => false

theorem pyModify_preserves_lastPlayed {l l2 : List PCGameEntry} {i : Int}
    {f : PCGameEntry → PCGameEntry}
    (hf : ∀ g, (f g).last_played_date = g.last_played_date)
    (h : pyModify l i f = some l2) :
    ∀ d ∈ l2.map (fun g => g.last_played_date), d ∈ l.map (fun g => g.last_played_date) := by
  intro d hd
  unfold pyModify at h
  cases hget : pyGet l i with
  | error e => rw [hget] at h; cases h
  | ok g0 =>
    rw [hget] at h
    obtain ⟨x, hx, hxd⟩ := List.mem_map.mp hd
    rcases pySet_mem h hx with hxl | hxe
    · exact List.mem_map.mpr ⟨x, hxl, hxd⟩
    · subst hxe
      rw [hf g0] at hxd
      exact List.mem_map.mpr ⟨g0, pyGet_mem hget, hxd⟩

theorem pyModifyConfigs_preserves_lastPlayed {l l2 : List PCGameEntry} {i : Int}
    {f : List AltConfig → Option (List AltConfig)}
    (h : pyModifyConfigs l i f = some l2) :
    ∀ d ∈ l2.map (fun g => g.last_played_date), d ∈ l.map (fun g => g.last_played_date) := by
  intro d hd
  unfold pyModifyConfigs at h
  cases hget : pyGet l i with
  | error e => rw [hget] at h; cases h
  | ok g0 =>
    rw [hget] at h
    have h2 : (match f g0.alternate_configs with
        | some cs => pySet l i { g0 with alternate_configs := cs }
        | none => none) = some l2 := h
    cases hf : f g0.alternate_configs with
    | none => rw [hf] at h2; cases h2
    | some cs =>
      rw [hf] at h2
      obtain ⟨x, hx, hxd⟩ := List.mem_map.mp hd
      rcases pySet_mem h2 hx with hxl | hxe
      · exact List.mem_map.mpr ⟨x, hxl, hxd⟩
      · subst hxe
        exact List.mem_map.mpr ⟨g0, pyGet_mem hget, hxd⟩

theorem optionMap_save {X : Option (List PCGameEntry)} {r : List PCGameEntry × Bool}
    (h : (X.map fun l2 => (l2, true)) = some r) : X = some r.1 ∧ r.2 = true := by
  cases X with
  | none => cases h
  | some l2 => cases h; exact ⟨rfl, rfl⟩

theorem pyDelete_mem {α : Type} {l l2 : List α} {i : Int} {x : α}
    (h : pyDelete l i = some l2) (hx : x ∈ l2) : x ∈ l := by
  unfold pyDelete at h
  split at h
  · cases h
    exact (List.eraseIdx_sublist l _).mem hx
  · cases h

theorem applyEngineOp_preserves_lastPlayed (op : EngineOp) (l : List PCGameEntry)
    (today : String) (r : List PCGameEntry × Bool) (hop : isLaunch op = false)
    (h : applyEngineOp op l today = some r) :
    ∀ d ∈ r.1.map (fun g => g.last_played_date),
      d ∈ l.map (fun g => g.last_played_date) ∨ d = "" := by
  intro d hd
  cases op with
  | newGame T S P =>
    cases h
    have hperm :=
      ((List.perm_insertionSort entry_le
        (add_pc_game l (new_pc_game_entry T S P))).map fun g => g.last_played_date)
    have hd2 := hperm.mem_iff.mp hd
    rw [add_pc_game, List.map_append] at hd2
    rcases List.mem_append.mp hd2 with hl | he
    · exact Or.inl hl
    · right
      simpa using he
  | sortGames =>
    cases h
    have hperm := ((List.perm_insertionSort entry_le l).map fun g => g.last_played_date)
    exact Or.inl (hperm.mem_iff.mp hd)
  | deleteGame i =>
    obtain ⟨hdel, -⟩ := optionMap_save h
    obtain ⟨x, hx, hxd⟩ := List.mem_map.mp hd
    exact Or.inl (List.mem_map.mpr ⟨x, pyDelete_mem hdel hx, hxd⟩)
  | editTitle i s =>
    obtain ⟨hmod, -⟩ := optionMap_save h
    refine Or.inl (pyModify_preserves_lastPlayed ?_ hmod d hd)
    intro g
    rfl
  | editSource i s =>
    obtain ⟨hmod, -⟩ := optionMap_save h
    refine Or.inl (pyModify_preserves_lastPlayed ?_ hmod d hd)
    intro g
    rfl
  | editPath i s =>
    obtain ⟨hmod, -⟩ := optionMap_save h
    refine Or.inl (pyModify_preserves_lastPlayed ?_ hmod d hd)
    intro g
    rfl
  | newAltConfig i t p =>
    obtain ⟨hmod, -⟩ := optionMap_save h
    exact Or.inl (pyModifyConfigs_preserves_lastPlayed hmod d hd)
  | updateAltConfig i j t p =>
    obtain ⟨hmod, -⟩ := optionMap_save h
    exact Or.inl (pyModifyConfigs_preserves_lastPlayed hmod d hd)
  | deleteAltConfig i j =>
    obtain ⟨hmod, -⟩ := optionMap_save h
    exact Or.inl (pyModifyConfigs_preserves_lastPlayed hmod d hd)
  | setDescription i dd =>
    obtain ⟨hmod, -⟩ := optionMap_save h
    refine Or.inl (pyModify_preserves_lastPlayed ?_ hmod d hd)
    intro g
    rfl
  | setCoverArt i =>
    obtain ⟨hmod, -⟩ := optionMap_save h
    refine Or.inl (pyModify_preserves_lastPlayed ?_ hmod d hd)
    intro g
    rfl
  | runDefault i => simp [isLaunch] at hop
  | runAlternate i j => simp [isLaunch] at hop

theorem applyEngineOp_runDefault {l : List PCGameEntry} {today : String} {i : Int}
    {r : List PCGameEntry × Bool}
    (h : applyEngineOp (.runDefault i) l today = some r) :
    r.2 = true ∧ ∃ g, pyGet l i = .ok g ∧
      pyGet r.1 i = .ok { g with last_played_date := today } := by
  obtain ⟨hmod, hsave⟩ := optionMap_save h
  refine ⟨hsave, ?_⟩
  unfold pyModify at hmod
  cases hget : pyGet l i with
  | error e => rw [hget] at hmod; cases hmod
  | ok g =>
    rw [hget] at hmod
    exact ⟨g, rfl, pyGet_pySet_self hmod⟩

theorem applyEngineOp_runAlternate {l : List PCGameEntry} {today : String} {i j : Int}
    {r : List PCGameEntry × Bool}
    (h : applyEngineOp (.runAlternate i j) l today = some r) :
    r.2 = true ∧ ∃ g, pyGet l i = .ok g ∧
      pyGet r.1 i = .ok { g with last_played_date := today } := by
  have h0 : (match pyGet l i with
      | Except.ok g =>
        match pyGet g.alternate_configs j with
        | Except.ok _ =>
          (pyModify l i fun g2 => { g2 with last_played_date := today }).map fun l2 => (l2, true)
        | Except.error _ => none
      | Except.error _ => none) = some r := h
  cases hget : pyGet l i with
  | error e => rw [hget] at h0; cases h0
  | ok g =>
    rw [hget] at h0
    have h2 : (match pyGet g.alternate_configs j with
        | .ok _ =>
          (pyModify l i fun g2 => { g2 with last_played_date := today }).map fun l2 => (l2, true)
        | .error _ => none) = some r := h0
    cases hget2 : pyGet g.alternate_configs j with
    | error e => rw [hget2] at h2; cases h2
    | ok c =>
      rw [hget2] at h2
      obtain ⟨hmod, hsave⟩ := optionMap_save h2
      refine ⟨hsave, ?_⟩
      unfold pyModify at hmod
      rw [hget] at hmod
      exact ⟨g, rfl, pyGet_pySet_self hmod⟩

/-- C8: the last-played date starts unset for a newly created record; it is
set to the current date exactly when the record is launched through the
default configuration or an alternate configuration, each such launch also
reporting an immediate save of the library; and no other engine operation
introduces a last-played date that was not already present (any date in
the resulting list is either an original one or the unset marker from a
freshly added record). -/
theorem claim_C8_last_played_discipline :
    (∀ T S P : String, (PCGameEntry.init T S P).last_played_date = "" ∧
      (new_pc_game_entry T S P).last_played_date = "") ∧
    (∀ (l : List PCGameEntry) (today : String) (i : Int) (r : List PCGameEntry × Bool),
      applyEngineOp (.runDefault i) l today = some r →
      r.2 = true ∧ ∃ g, pyGet l i = .ok g ∧
        pyGet r.1 i = .ok { g with last_played_date := today }) ∧
    (∀ (l : List PCGameEntry) (today : String) (i j : Int) (r : List PCGameEntry × Bool),
      applyEngineOp (.runAlternate i j) l today = some r →
      r.2 = true ∧ ∃ g, pyGet l i = .ok g ∧
        pyGet r.1 i = .ok { g with last_played_date := today }) ∧
    (∀ (op : EngineOp) (l : List PCGameEntry) (today : String) (r : List PCGameEntry × Bool),
      isLaunch op = false → applyEngineOp op l today = some r →
      ∀ d ∈ r.1.map (fun g => g.last_played_date),
        d ∈ l.map (fun g => g.last_played_date) ∨ d = "") :=
  ⟨fun _ _ _ => ⟨rfl, rfl⟩,
   fun _ _ _ _ h => applyEngineOp_runDefault h,
   fun _ _ _ _ _ h => applyEngineOp_runAlternate h,
   fun op l today r hop h => applyEngineOp_preserves_lastPlayed op l today r hop h⟩

theorem claim_C8_last_played_discipline_witness :
    applyEngineOp (EngineOp.runDefault 0) [sampleAM2R] "03/15/2022" =
        some ([{ sampleAM2R with last_played_date := "03/15/2022" }], true) ∧
      ((([{ sampleAM2R with last_played_date := "03/15/2022" }],
            true) : List PCGameEntry × Bool).2 = true ∧
        ∃ g, pyGet [sampleAM2R] 0 = .ok g ∧
          pyGet (([{ sampleAM2R with last_played_date := "03/15/2022" }],
              true) : List PCGameEntry × Bool).1 0 =
            .ok { g with last_played_date := "03/15/2022" }) :=
  ⟨by decide,
   claim_C8_last_played_discipline.2.1 [sampleAM2R] "03/15/2022" 0
     ([{ sampleAM2R with last_played_date := "03/15/2022" }], true) (by decide)⟩

/-- Python str.lower() as applied to the one-token menu inputs
(choice_string.lower() throughout GameOrganizer.py). -/
def py_lower (s : String) : String := String.mk (s.data.map Char.toLower)

/-- Result of a view flow: the PC games list afterwards, whether the
enrichment client was invoked, and whether save_pc_games_list ran. -/
structure ViewResult where
  pc_games_list : List PCGameEntry
  called_client : Bool
  saved : Bool
deriving DecidableEq

/-- GameOrganizerApp.view_game_description_pc (GameOrganizer.py lines
793-830): when the selected record's description is nonempty it is
displayed as is (no client call, no mutation, no save); when empty and the
user consents with a token lowering to y, the description service is
called, the text `downloaded` is stored on the record and the list is
saved; on any other token nothing changes. -/
def view_game_description_pc (l : List PCGameEntry) (i : Int)
    (choice_string downloaded : String) : Option ViewResult :=
  match pyGet l i with
  | .error _ => none
  | .ok g =>
    if g.description ≠ "" then some { pc_games_list := l, called_client := false, saved := false }
    else if py_lower choice_string = "y" then
      match pySet l i { g with description := downloaded } with
      | some l2 => some { pc_games_list := l2, called_client := true, saved := true }
      | none => none
    else some { pc_games_list := l, called_client := false, saved := false }

/-- GameOrganizerApp.view_cover_art_pc (GameOrganizer.py lines 832-865):
same shape as the description flow, with the cover-art file field and the
downloaded path produced by download_cover_art from the record's title. -/
def view_cover_art_pc (l : List PCGameEntry) (i : Int) (choice_string : String) :
    Option ViewResult :=
  match pyGet l i with
  | .error _ => none
  | .ok g =>
    if g.cover_art_file ≠ "" then
      some { pc_games_list := l, called_client := false, saved := false }
    else if py_lower choice_string = "y" then
      match pySet l i { g with cover_art_file := download_cover_art_path g.title } with
      | some l2 => some { pc_games_list := l2, called_client := true, saved := true }
      | none => none
    else some { pc_games_list := l, called_client := false, saved := false }

/-- C9: viewing a description or cover art that is already set is a pure
read: the cached value is shown with no enrichment call, no record
mutation and no save; the enrichment download happens exactly when the
field is absent and the user consents, and in that case the downloaded
value is stored on the record and the library is saved. -/
theorem claim_C9_cached_view_pure (l : List PCGameEntry) (i : Int)
    (choice_string downloaded : String) (g : PCGameEntry)
    (hget : pyGet l i = .ok g) :
    (g.description ≠ "" → view_game_description_pc l i choice_string downloaded =
      some { pc_games_list := l, called_client := false, saved := false }) ∧
    (g.cover_art_file ≠ "" → view_cover_art_pc l i choice_string =
      some { pc_games_list := l, called_client := false, saved := false }) ∧
    (∀ r, view_game_description_pc l i choice_string downloaded = some r →
      (r.called_client = true ↔ (g.description = "" ∧ py_lower choice_string = "y")) ∧
      (r.called_client = true →
        r.saved = true ∧ pyGet r.pc_games_list i = .ok { g with description := downloaded }) ∧
      (r.called_client = false → r.pc_games_list = l ∧ r.saved = false)) ∧
    (∀ r, view_cover_art_pc l i choice_string = some r →
      (r.called_client = true ↔ (g.cover_art_file = "" ∧ py_lower choice_string = "y")) ∧
      (r.called_client = true → r.saved = true ∧
        pyGet r.pc_games_list i = .ok { g with cover_art_file := download_cover_art_path g.title }) ∧
      (r.called_client = false → r.pc_games_list = l ∧ r.saved = false)) := by
  have hdesc : view_game_description_pc l i choice_string downloaded =
      (if g.description ≠ "" then
          some { pc_games_list := l, called_client := false, saved := false }
        else if py_lower choice_string = "y" then
          match pySet l i { g with description := downloaded } with
          | some l2 => some { pc_games_list := l2, called_client := true, saved := true }
          | none => none
        else some { pc_games_list := l, called_client := false, saved := false }) := by
    unfold view_game_description_pc
    rw [hget]
  have hart : view_cover_art_pc l i choice_string =
      (if g.cover_art_file ≠ "" then
          some { pc_games_list := l, called_client := false, saved := false }
        else if py_lower choice_string = "y" then
          match pySet l i { g with cover_art_file := download_cover_art_path g.title } with
          | some l2 => some { pc_games_list := l2, called_client := true, saved := true }
          | none => none
        else some { pc_games_list := l, called_client := false, saved := false }) := by
    unfold view_cover_art_pc
    rw [hget]
  refine ⟨fun hne => by rw [hdesc, if_pos hne], fun hne => by rw [hart, if_pos hne],
    fun r hr => ?_, fun r hr => ?_⟩
  · rw [hdesc] at hr
    by_cases hd : g.description ≠ ""
    · rw [if_pos hd] at hr
      cases hr
      refine ⟨by simp [hd], by simp, fun _ => ⟨rfl, rfl⟩⟩
    · rw [if_neg hd] at hr
      push_neg at hd
      by_cases hy : py_lower choice_string = "y"
      · rw [if_pos hy] at hr
        rw [pySet_of_pyGet hget] at hr
        cases hr
        exact ⟨by simp [hd, hy], fun _ => ⟨rfl, pyGet_pySet_self (pySet_of_pyGet hget _)⟩,
          by simp⟩
      · rw [if_neg hy] at hr
        cases hr
        exact ⟨by simp [hy], by simp, fun _ => ⟨rfl, rfl⟩⟩
  · rw [hart] at hr
    by_cases hd : g.cover_art_file ≠ ""
    · rw [if_pos hd] at hr
      cases hr
      refine ⟨by simp [hd], by simp, fun _ => ⟨rfl, rfl⟩⟩
    · rw [if_neg hd] at hr
      push_neg at hd
      by_cases hy : py_lower choice_string = "y"
      · rw [if_pos hy] at hr
        rw [pySet_of_pyGet hget] at hr
        cases hr
        exact ⟨by simp [hd, hy], fun _ => ⟨rfl, pyGet_pySet_self (pySet_of_pyGet hget _)⟩,
          by simp⟩
      · rw [if_neg hy] at hr
        cases hr
        exact ⟨by simp [hy], by simp, fun _ => ⟨rfl, rfl⟩⟩

/-- Sample record carrying a cached description and cover-art file, for
evaluating the cached view flows. -/
def sampleEnriched : PCGameEntry :=
  { sampleAM2R with
    description := "An action-adventure game."
    cover_art_file := "./images/AM2R.png" }

theorem claim_C9_cached_view_pure_witness :
    pyGet [sampleEnriched] 0 = .ok sampleEnriched ∧
      sampleEnriched.description ≠ "" ∧
      view_game_description_pc [sampleEnriched] 0 "Y" "zzz" =
        some { pc_games_list := [sampleEnriched], called_client := false, saved := false } :=
  ⟨rfl, by decide,
   (claim_C9_cached_view_pure [sampleEnriched] 0 "Y" "zzz" sampleEnriched rfl).1 (by decide)⟩
